import Mathlib

/-!
Shallow embedding of the two recurring patterns of the sv-workflows repository:

* the bounded-concurrency job-dependency pattern of
  `str/runners/str_iterative_eh_runner.py` (`main`, lines 109 and 172-174) and
  `str/coloc/coloc_gymrek_ukbb_runner.py` (`manage_concurrency_for_job`,
  lines 132-140); and

* the sharded-VCF combining logic of
  `str/helper/merge_str_vcf_combiner.py` (`main`, lines 33-68).
-/

/-- Job handles are opaque identifiers; we model them as natural numbers. -/
abbrev Handle := Nat

/-- Errors raised by the modelled Python code paths: `IndexError` from list
indexing and `ValueError` from `int()` parsing. -/
inductive PyError where
  | indexError
  | valueError
  deriving DecidableEq

/-- Python list indexing `xs[-w]` for a nonnegative `w`, as in the source
expression `jobs[-max_parallel_jobs]`: `xs[-0]` is `xs[0]`, and for `w ≥ 1`
it is the element `w` places from the end; `none` models an `IndexError`. -/
def pyNegIndex {α : Type} (xs : List α) (w : Nat) : Option α :=
  if w = 0 then xs[0]? else if w ≤ xs.length then xs[xs.length - w]? else none

/-- One step of the concurrency pattern, mirroring the source lines

  if len(jobs) >= max_parallel_jobs:
      eh_job.depends_on(jobs[-max_parallel_jobs])
  jobs.append(eh_job)

of `str_iterative_eh_runner.py` (and identically `manage_concurrency_for_job`
in `coloc_gymrek_ukbb_runner.py`).  It returns the grown internal list and the
dependency attached to the new job (`none` means no dependency edge). -/
def register (w : Nat) (jobs : List Handle) (h : Handle) :
    Except PyError (List Handle × Option Handle) :=
  if w ≤ jobs.length then
    match pyNegIndex jobs w with
    | none => .error .indexError
    | some d => .ok (jobs ++ [h], some d)
  else
    .ok (jobs ++ [h], none)

/-- Run a sequence of `register` calls starting from an internal list `jobs`,
returning the per-call dependency list and the final internal list.  A raised
exception aborts the whole loop, as in the Python `for` loop. -/
def runGate (w : Nat) (jobs : List Handle) :
    List Handle → Except PyError (List (Option Handle) × List Handle)
  | [] => .ok ([], jobs)
  | h :: rest =>
    match register w jobs h with
    | .error e => .error e
    | .ok (jobs2, d) =>
      match runGate w jobs2 rest with
      | .error e => .error e
      | .ok (ds, final) => .ok (d :: ds, final)

example : runGate 2 [] [10, 20, 30, 40] =
    .ok ([none, none, some 10, some 20], [10, 20, 30, 40]) := rfl

example : runGate 1 [] [5, 6] = .ok ([none, some 5], [5, 6]) := rfl

example : runGate 0 [] [5] = .error .indexError := rfl

/-- Helper: the per-call dependency formula, as a function of the initial list
length and the call index. -/
def depAt (w : Nat) (jobs : List Handle) (hs : List Handle) (i : Nat) : Option Handle :=
  if w ≤ jobs.length + i then (jobs ++ hs.take i)[jobs.length + i - w]? else none

theorem depAt_shift (w : Nat) (jobs : List Handle) (h : Handle) (rest : List Handle)
    (i : Nat) : depAt w jobs (h :: rest) (i + 1) = depAt w (jobs ++ [h]) rest i := by
  unfold depAt
  have hlen : (jobs ++ [h]).length = jobs.length + 1 := by simp
  have harith : jobs.length + (i + 1) = jobs.length + 1 + i := by omega
  rw [hlen, ← harith, List.take_succ_cons]
  have hlist : jobs ++ h :: rest.take i = (jobs ++ [h]) ++ rest.take i := by simp
  rw [hlist]

/-- Master lemma: for `w ≥ 1` no exception is ever raised, the internal list
is the initial list with every handle appended (nothing is ever evicted), and
the dependency of the `i`-th call reads the handle `w` places from the end of
the list at the time of the call. -/
theorem runGate_ok (w : Nat) (hw : 1 ≤ w) (hs : List Handle) : ∀ jobs : List Handle,
    runGate w jobs hs =
      .ok ((List.range hs.length).map (depAt w jobs hs), jobs ++ hs) := by
  induction hs with
  | nil => intro jobs; simp [runGate]
  | cons h rest ih =>
    intro jobs
    have hw0 : w ≠ 0 := by omega
    have htail : (List.range rest.length).map (fun i => depAt w jobs (h :: rest) (i + 1)) =
        (List.range rest.length).map (depAt w (jobs ++ [h]) rest) := by
      apply List.map_congr_left
      intro i _
      exact depAt_shift w jobs h rest i
    have hrange : (List.range (h :: rest).length).map (depAt w jobs (h :: rest)) =
        depAt w jobs (h :: rest) 0 :: (List.range rest.length).map (depAt w (jobs ++ [h]) rest) := by
      rw [List.length_cons, List.range_succ_eq_map, List.map_cons, List.map_map]
      rw [← htail]
      rfl
    rw [hrange]
    by_cases hlen : w ≤ jobs.length
    · have hidx : jobs.length - w < jobs.length := by omega
      have hpy : pyNegIndex jobs w = some jobs[jobs.length - w] := by
        rw [pyNegIndex, if_neg hw0, if_pos hlen, List.getElem?_eq_getElem hidx]
      have hreg : register w jobs h = .ok (jobs ++ [h], some jobs[jobs.length - w]) := by
        rw [register, if_pos hlen, hpy]
      have hdep : depAt w jobs (h :: rest) 0 = some jobs[jobs.length - w] := by
        rw [depAt, if_pos (by omega)]
        simp [List.getElem?_eq_getElem hidx]
      rw [runGate, hreg]
      dsimp only
      rw [ih (jobs ++ [h])]
      dsimp only
      rw [hdep]
      simp
    · have hreg : register w jobs h = .ok (jobs ++ [h], none) := by
        rw [register, if_neg hlen]
      have hdep : depAt w jobs (h :: rest) 0 = none := by
        rw [depAt, if_neg (by omega)]
      rw [runGate, hreg]
      dsimp only
      rw [ih (jobs ++ [h])]
      dsimp only
      rw [hdep]
      simp

/-- Claim C1: for every window size `W ≥ 1` and every sequence of `register`
calls, each of the first `W` calls returns an empty dependency set (`none`),
and every later call returns exactly the singleton dependency (`some`) holding
the handle registered `W` calls earlier. -/
theorem gate_dependency_rule (w : Nat) (hw : 1 ≤ w) (hs : List Handle) :
    runGate w [] hs =
      .ok ((List.range hs.length).map (fun i => if i < w then none else hs[i - w]?), hs) := by
  rw [runGate_ok w hw hs []]
  have hmap : (List.range hs.length).map (depAt w [] hs) =
      (List.range hs.length).map (fun i => if i < w then none else hs[i - w]?) := by
    apply List.map_congr_left
    intro i hi
    rw [List.mem_range] at hi
    unfold depAt
    simp only [List.length_nil, List.nil_append, Nat.zero_add]
    by_cases hiw : w ≤ i
    · rw [if_pos hiw, if_neg (by omega), List.getElem?_take, if_pos (by omega)]
    · rw [if_neg hiw, if_pos (by omega)]
  rw [hmap]
  simp

/-- Witness for C1: `W = 2` on handles `[10, 20, 30, 40]` yields dependency
sets `[], [], {10}, {20}`, matching the spec's `[A, B, C, D]` example. -/
theorem gate_dependency_rule_witness :
    runGate 2 [] [10, 20, 30, 40] = .ok ([none, none, some 10, some 20], [10, 20, 30, 40]) := by
  rw [gate_dependency_rule 2 (by omega) [10, 20, 30, 40]]
  rfl

/-- Counterexample to claim C3 as stated: with `W = 1`, after two `register`
calls the gate's internal list holds both handles (length 2 > 1); nothing is
ever evicted from the source's `jobs` list. -/
theorem gate_window_bound_counterexample :
    runGate 1 [] [5, 6] = .ok ([none, some 5], [5, 6]) ∧
      ¬ ([5, 6] : List Handle).length ≤ 1 :=
  ⟨rfl, by decide⟩

/-- Amended C3: the internal list is append-only and never evicts — after `n`
successful `register` calls it holds all `n` handles, so its length equals the
number of calls and exceeds `W` as soon as `n > W`; the dependency behaviour
nevertheless only ever reads the entry `W` places from the end. -/
theorem gate_append_only (w : Nat) (hw : 1 ≤ w) (hs : List Handle) :
    (runGate w [] hs).map (fun r => r.2) = .ok hs ∧
      (runGate w [] hs).map (fun r => r.2.length) = .ok hs.length := by
  rw [runGate_ok w hw hs []]
  constructor <;> simp [Except.map]

/-- Witness for the amended C3 at `W = 1` and two calls. -/
theorem gate_append_only_witness :
    (runGate 1 [] [5, 6]).map (fun r => r.2) = .ok [5, 6] ∧
      (runGate 1 [] [5, 6]).map (fun r => r.2.length) = .ok 2 :=
  gate_append_only 1 (by omega) [5, 6]

/-- Counterexample to claim C4 as stated: with `W = 0` nothing is rejected at
construction time (running zero `register` calls succeeds), and the failure
that does occur is an `IndexError` raised by the first `register` call
(`jobs[-0]`, i.e. `jobs[0]`, on the empty list) — not a `ConfigurationError`
raised before any submission. -/
theorem gate_zero_window_counterexample :
    runGate 0 [] ([] : List Handle) = .ok ([], []) ∧
      runGate 0 [] [5] = .error PyError.indexError :=
  ⟨rfl, rfl⟩

/-- Amended C4: `W = 0` is not validated anywhere; the gate comes up fine and
the first `register` call then raises `IndexError`, so no `register` call ever
completes under `W = 0`. -/
theorem gate_zero_window_index_error (h : Handle) (hs : List Handle) :
    runGate 0 [] (h :: hs) = .error PyError.indexError := rfl

/-- Classification of one VCF line, read off from the branch structure of the
loop body in `merge_str_vcf_combiner.py` lines 50-66: the seven recognised
header/control markers, then data lines (no leading hash), then everything
else (a hash line with an unrecognised marker), which the loop writes from no
branch at all. -/
inductive LineClass where
  | header
  | data
  | dropped
  deriving DecidableEq

/-- Python `line.startswith(pre)`, expressed character by character so that it
evaluates on concrete inputs. -/
def strStartsWith (s pre : String) : Bool :=
  pre.data.isPrefixOf s.data

/-- Line classifier mirroring the `if`/`elif` chain of the source (lines
50-65).  The three header branches of the source all guard their write with
`if key == 1`, so they are collapsed into one class here. -/
def classify (line : String) : LineClass :=
  if strStartsWith line "##fileformat" then .header
  else if strStartsWith line "##INFO" || strStartsWith line "##FILTER"
      || strStartsWith line "##FORMAT" || strStartsWith line "##contig"
      || strStartsWith line "##command" then .header
  else if strStartsWith line "#CHROM" then .header
  else if !strStartsWith line "#" then .data
  else .dropped

/-- Whether the loop body writes `line` while processing the shard with key
`key`: header lines only when `key == 1`, data lines always, unrecognised
hash lines never. -/
def emitLine (key : Int) (line : String) : Bool :=
  match classify line with
  | .header => key = 1
  | .data => true
  | .dropped => false

/-- A shard: its integer sort key (the number extracted from the file name)
and its lines. -/
structure Shard where
  key : Int
  lines : List String
  deriving DecidableEq

/-- Dictionary lookup with Python `dict`-comprehension semantics: given the
shards in supply order, the LAST shard with the given key wins (a duplicate
key silently overwrites the earlier entry, as in the comprehension on source
lines 36-39). -/
def dictLookup : List Shard → Int → Option (List String)
  | [], _ => none
  | s :: rest, k =>
    match dictLookup rest k with
    | some v => some v
    | none => if s.key = k then some s.lines else none

/-- Lines stored in the shard dictionary under key `k` (empty when absent). -/
def dictLines (shards : List Shard) (k : Int) : List String :=
  (dictLookup shards k).getD []

/-- The sorted list of distinct shard keys, mirroring
`sorted(input_files_dict.keys())` on source line 43. -/
def sortedKeys (shards : List Shard) : List Int :=
  List.insertionSort (· ≤ ·) (shards.map Shard.key).dedup

/-- The combined output: for each key in ascending order, the lines of the
shard stored under that key that the loop body writes (source lines 43-66). -/
def merge (shards : List Shard) : List String :=
  (sortedKeys shards).flatMap (fun k => (dictLines shards k).filter (emitLine k))

example : merge [⟨2, ["##fileformat=VCFv4.1", "dataA"]⟩, ⟨3, ["dataB"]⟩] = ["dataA", "dataB"] := by decide

example : merge [⟨2, ["##INFO=x", "dataA"]⟩, ⟨1, ["##INFO=y", "dataB"]⟩] =
    ["##INFO=y", "dataB", "dataA"] := by decide

example : merge [⟨1, ["a"]⟩, ⟨1, ["b"]⟩] = ["b"] := by decide

/-- Fuel-driven worker for `pySplit`.  The fuel starts at the length of the
string being split, and every step either finishes or consumes at least one
character and one unit of fuel, so the fuel never runs out in `pySplit`. -/
def splitGo (sep : List Char) : Nat → List Char → List (List Char)
  | _, [] => [[]]
  | 0, s => [s]
  | fuel + 1, c :: rest =>
    if sep.isPrefixOf (c :: rest) && !sep.isEmpty then
      [] :: splitGo sep fuel ((c :: rest).drop sep.length)
    else
      match splitGo sep fuel rest with
      | [] => [[c]]
      | h :: t => (c :: h) :: t

/-- Python `s.split(sep)` for a non-empty separator: the fields of `s`
between non-overlapping occurrences of `sep`, scanned left to right. -/
def pySplit (s sep : String) : List String :=
  (splitGo sep.data s.data.length s.data).map (fun cs => String.mk cs)

example : pySplit "a_eh_shard12.vcf.gz" "eh_shard" = ["a_", "12.vcf.gz"] := by decide
example : pySplit "12.vcf.gz" "." = ["12", "vcf", "gz"] := by decide
example : pySplit "sample.vcf.gz" "eh_shard" = ["sample.vcf.gz"] := by decide

/-- Decimal value of a digit string. -/
def digitsToNat (cs : List Char) : Nat :=
  cs.foldl (fun n c => 10 * n + (c.toNat - 48)) 0

/-- Python `int(s)`, modelled for an optional sign followed by decimal digits
(the only shapes a shard index can take); anything else — in particular the
empty string or a string with non-digit characters — raises `ValueError`. -/
def pyInt (s : String) : Except PyError Int :=
  match s.data with
  | '-' :: rest =>
    if !rest.isEmpty && rest.all Char.isDigit then .ok (-(digitsToNat rest : Int))
    else .error .valueError
  | '+' :: rest =>
    if !rest.isEmpty && rest.all Char.isDigit then .ok (digitsToNat rest : Int)
    else .error .valueError
  | cs =>
    if !cs.isEmpty && cs.all Char.isDigit then .ok (digitsToNat cs : Int)
    else .error .valueError

/-- Shard-key extraction, mirroring source line 37:
`int(file_path.split('eh_shard')[1].split('.')[0])`.  A missing second field
is Python's `IndexError`; a non-integer segment is `ValueError`. -/
def extractKey (path : String) : Except PyError Int :=
  match pySplit path "eh_shard" with
  | _ :: second :: _ =>
    match pySplit second "." with
    | first :: _ => pyInt first
    | [] => .error .indexError
  | _ => .error .indexError

example : extractKey "gs://b/a_eh_shard12.vcf.gz" = .ok 12 := rfl
example : extractKey "sample.vcf.gz" = .error .indexError := rfl
example : extractKey "a_eh_shardX.vcf.gz" = .error .valueError := rfl
example : extractKey "a_eh_shard.eh_shard5.vcf.gz" = .error .valueError := rfl

/-- Key extraction over all input paths, in supply order, as in the dict
comprehension on source lines 36-39; the first failing path aborts the whole
program before any output is produced. -/
def extractKeys : List String → Except PyError (List (Int × String))
  | [] => .ok []
  | p :: rest => do
    let k ← extractKey p
    let ks ← extractKeys rest
    .ok ((k, p) :: ks)

/-- The whole combining program of `merge_str_vcf_combiner.py` as a function
of the input paths and an abstract line source (`contents`): extract every
shard key first (lines 33-39), then write the merged lines (lines 41-66).
An `Except.error` result models the Python exception aborting the program
with no output written. -/
def mainMerge (paths : List String) (contents : String → List String) :
    Except PyError (List String) := do
  let kvs ← extractKeys paths
  .ok (merge (kvs.map (fun kv => Shard.mk kv.1 (contents kv.2))))

example : mainMerge [] (fun _ => []) = .ok [] := rfl

example : mainMerge ["a_eh_shard2.vcf.gz", "a_eh_shard1.vcf.gz"]
    (fun p => if p = "a_eh_shard1.vcf.gz" then ["##INFO=y", "d1"] else ["##INFO=x", "d2"]) =
    .ok ["##INFO=y", "d1", "d2"] := rfl

/-- Boolean test for a header/control-classified line. -/
def isHeaderLine (l : String) : Bool := decide (classify l = LineClass.header)

/-- Boolean test for a data-classified line. -/
def isDataLine (l : String) : Bool := decide (classify l = LineClass.data)

theorem mem_sortedKeys (shards : List Shard) (k : Int) :
    k ∈ sortedKeys shards ↔ k ∈ shards.map Shard.key := by
  rw [sortedKeys, List.mem_insertionSort, List.mem_dedup]

theorem sortedKeys_nodup (shards : List Shard) : (sortedKeys shards).Nodup := by
  have hperm := List.perm_insertionSort (α := Int) (· ≤ ·) (shards.map Shard.key).dedup
  exact hperm.symm.nodup (List.nodup_dedup _)

theorem dictLookup_eq_none (shards : List Shard) (k : Int)
    (hk : k ∉ shards.map Shard.key) : dictLookup shards k = none := by
  induction shards with
  | nil => rfl
  | cons s rest ih =>
    simp only [List.map_cons, List.mem_cons, not_or] at hk
    rw [dictLookup, ih hk.2]
    show (if s.key = k then some s.lines else none) = none
    rw [if_neg (fun h => hk.1 h.symm)]

theorem dictLookup_isSome (shards : List Shard) (k : Int)
    (hk : k ∈ shards.map Shard.key) : ∃ v, dictLookup shards k = some v := by
  induction shards with
  | nil => simp at hk
  | cons s rest ih =>
    simp only [List.map_cons, List.mem_cons] at hk
    by_cases hr : k ∈ rest.map Shard.key
    · obtain ⟨v, hv⟩ := ih hr
      exact ⟨v, by rw [dictLookup, hv]⟩
    · have hs : s.key = k := by tauto
      exact ⟨s.lines, by rw [dictLookup, dictLookup_eq_none rest k hr, if_pos hs]⟩

theorem dictLookup_nodup_mem (shards : List Shard)
    (hnd : (shards.map Shard.key).Nodup) (s : Shard) (hs : s ∈ shards) :
    dictLookup shards s.key = some s.lines := by
  induction shards with
  | nil => simp at hs
  | cons t rest ih =>
    rw [List.map_cons, List.nodup_cons] at hnd
    rcases List.mem_cons.mp hs with heq | hmem
    · subst heq
      have hnot : s.key ∉ rest.map Shard.key := hnd.1
      rw [dictLookup, dictLookup_eq_none rest s.key hnot, if_pos rfl]
    · rw [dictLookup, ih hnd.2 hmem]

/-- Helper: a function that is empty except at one key, flat-mapped over a
duplicate-free list, contributes that key's value exactly when the key occurs. -/
theorem flatMap_single_key (l : List Int) (hnd : l.Nodup) (x : List String) :
    (l.flatMap (fun k => if k = 1 then x else [])) = if (1 : Int) ∈ l then x else [] := by
  induction l with
  | nil => simp
  | cons a rest ih =>
    rw [List.nodup_cons] at hnd
    rw [List.flatMap_cons, ih hnd.2]
    by_cases ha : a = (1 : Int)
    · subst ha
      rw [if_pos rfl, if_neg hnd.1, if_pos (List.mem_cons_self _ _)]
      simp
    · rw [if_neg ha]
      have hiff : ((1 : Int) ∈ a :: rest) ↔ ((1 : Int) ∈ rest) := by
        constructor
        · intro h
          rcases List.mem_cons.mp h with h1 | h2
          · exact absurd h1.symm ha
          · exact h2
        · exact List.mem_cons_of_mem a
      by_cases hm : (1 : Int) ∈ rest
      · rw [if_pos hm, if_pos (List.mem_cons_of_mem _ hm)]
        simp
      · rw [if_neg hm, if_neg (fun hc => hm (hiff.mp hc))]
        simp

/-- Helper: filtering the per-shard emitted lines down to header lines keeps
them all when the shard key is 1 and nothing otherwise. -/
theorem headerFilter_key (k : Int) (xs : List String) :
    (xs.filter (emitLine k)).filter isHeaderLine =
      if k = 1 then xs.filter isHeaderLine else [] := by
  rw [List.filter_filter]
  by_cases hk : k = 1
  · subst hk
    rw [if_pos rfl]
    apply List.filter_congr
    intro l _
    rw [isHeaderLine, emitLine]
    cases hcl : classify l <;> simp [hcl]
  · rw [if_neg hk]
    rw [List.filter_eq_nil_iff]
    intro l _
    rw [isHeaderLine, emitLine]
    cases hcl : classify l <;> simp [hcl, hk]

/-- Helper: the header lines of the merged output are exactly the header
lines stored in the dictionary under key 1 (empty when no shard has key 1). -/
theorem merge_filter_header (shards : List Shard) :
    (merge shards).filter isHeaderLine = (dictLines shards 1).filter isHeaderLine := by
  rw [merge, List.filter_flatMap]
  have hcong : (sortedKeys shards).flatMap
        (fun k => ((dictLines shards k).filter (emitLine k)).filter isHeaderLine) =
      (sortedKeys shards).flatMap
        (fun k => if k = 1 then (dictLines shards 1).filter isHeaderLine else []) := by
    apply List.flatMap_congr
    intro k _
    rw [headerFilter_key]
    by_cases hk : k = 1
    · subst hk; rfl
    · rw [if_neg hk, if_neg hk]
  rw [hcong, flatMap_single_key _ (sortedKeys_nodup shards)]
  by_cases hm : (1 : Int) ∈ sortedKeys shards
  · rw [if_pos hm]
  · rw [if_neg hm]
    rw [mem_sortedKeys] at hm
    rw [dictLines, dictLookup_eq_none shards 1 hm]
    rfl

/-- Claim C8 (implicit): the merger emits header/control lines if and only if
some shard's sort key equals the literal value 1 — the emitted header lines
are exactly the header lines of the key-1 dictionary entry (empty when no key
equals 1, e.g. keys {2, 3}), and every emitted line is classified header or
data, so without a key-1 shard the output consists of data lines only. -/
theorem merge_header_iff_key_one (shards : List Shard) :
    (merge shards).filter isHeaderLine = (dictLines shards 1).filter isHeaderLine ∧
      ∀ l ∈ merge shards, classify l ≠ LineClass.dropped := by
  refine ⟨merge_filter_header shards, ?_⟩
  intro l hl hdrop
  rw [merge, List.mem_flatMap] at hl
  obtain ⟨k, hk, hmem⟩ := hl
  rw [List.mem_filter, emitLine, hdrop] at hmem
  exact Bool.false_ne_true hmem.2

/-- Counterexample to claim C2 as stated: with shards keyed {2, 3}, the
minimum-key shard's header/control line `##fileformat=VCFv4.1` is NOT emitted
— the merged output is just the data lines, because the source tests
`key == 1`, not minimality. -/
theorem merge_header_min_key_counterexample :
    classify "##fileformat=VCFv4.1" = LineClass.header ∧
      merge [⟨2, ["##fileformat=VCFv4.1", "dataA"]⟩, ⟨3, ["dataB"]⟩] = ["dataA", "dataB"] ∧
      "##fileformat=VCFv4.1" ∉ merge [⟨2, ["##fileformat=VCFv4.1", "dataA"]⟩, ⟨3, ["dataB"]⟩] :=
  ⟨rfl, by decide, by decide⟩

/-- Amended C2: for every non-empty collection of shards with unique sort
keys, a line classified header-control is emitted if and only if it comes
from the shard whose sort key equals the literal 1 (not the minimum key);
collections without a key-1 shard emit no header line at all. -/
theorem merge_header_key_one_membership (shards : List Shard)
    (_hne : shards ≠ []) (_hnd : (shards.map Shard.key).Nodup)
    (l : String) (hl : classify l = LineClass.header) :
    l ∈ merge shards ↔ l ∈ dictLines shards 1 := by
  have hfilter := merge_filter_header shards
  have hline : isHeaderLine l = true := by simp [isHeaderLine, hl]
  constructor
  · intro hm
    have hmem : l ∈ (merge shards).filter isHeaderLine :=
      List.mem_filter.mpr ⟨hm, hline⟩
    rw [hfilter] at hmem
    exact (List.mem_filter.mp hmem).1
  · intro hm
    have hmem : l ∈ (dictLines shards 1).filter isHeaderLine :=
      List.mem_filter.mpr ⟨hm, hline⟩
    rw [← hfilter] at hmem
    exact (List.mem_filter.mp hmem).1

/-- Witness for the amended C2 on a two-shard collection with keys {1, 2}. -/
theorem merge_header_key_one_membership_witness :
    "##INFO=a" ∈ merge [⟨1, ["##INFO=a", "row1"]⟩, ⟨2, ["##INFO=b", "row2"]⟩] ↔
      "##INFO=a" ∈ dictLines [⟨1, ["##INFO=a", "row1"]⟩, ⟨2, ["##INFO=b", "row2"]⟩] 1 :=
  merge_header_key_one_membership _ (by decide) (by decide) _ (by decide)

/-- Counterexample to claim C5 as stated: merging an empty collection does
not fail at all — the program opens the sink, writes nothing, and finishes
normally (`Except.ok []`), raising no `EmptyInputError`. -/
theorem merge_empty_counterexample : mainMerge [] (fun _ => []) = .ok [] := rfl

/-- Amended C5: invoking the combiner on an empty collection of shards emits
no output lines but succeeds silently instead of failing — there is no
empty-input validation in the source. -/
theorem merge_empty_ok (contents : String → List String) :
    mainMerge [] contents = .ok [] := rfl

/-- Counterexample to claim C6 as stated: two shards sharing sort key 1 raise
no error; the merge silently keeps only the later-supplied shard's lines and
the earlier shard's data line `a` is dropped from the output. -/
theorem merge_duplicate_key_counterexample :
    merge [⟨1, ["a"]⟩, ⟨1, ["b"]⟩] = ["b"] ∧ "a" ∉ merge [⟨1, ["a"]⟩, ⟨1, ["b"]⟩] :=
  ⟨by decide, by decide⟩

/-- Amended C6: duplicate sort keys are not detected; a shard whose key also
occurs among the later-supplied shards is silently overwritten in the key
dictionary, so the merge behaves exactly as if that earlier shard had never
been supplied. -/
theorem merge_duplicate_key_overwrite (a : Shard) (shards : List Shard)
    (h : a.key ∈ shards.map Shard.key) : merge (a :: shards) = merge shards := by
  have hkeys : sortedKeys (a :: shards) = sortedKeys shards := by
    rw [sortedKeys, sortedKeys, List.map_cons, List.dedup_cons_of_mem h]
  rw [merge, merge, hkeys]
  apply List.flatMap_congr
  intro k hk
  rw [mem_sortedKeys] at hk
  obtain ⟨v, hv⟩ := dictLookup_isSome shards k hk
  have hcons : dictLookup (a :: shards) k = some v := by rw [dictLookup, hv]
  rw [dictLines, dictLines, hcons, hv]

/-- Witness for the amended C6 on the duplicate-key pair from the
counterexample. -/
theorem merge_duplicate_key_overwrite_witness :
    merge [⟨1, ["a"]⟩, ⟨1, ["b"]⟩] = merge [⟨1, ["b"]⟩] :=
  merge_duplicate_key_overwrite ⟨1, ["a"]⟩ [⟨1, ["b"]⟩] (by decide)

/-- Claim C9 (implicit): a line beginning with `#` whose prefix is none of
the seven recognised markers is emitted from no shard at all — it is silently
dropped even when it occurs in the key-1 shard. -/
theorem merge_unknown_hash_dropped (line : String)
    (h0 : strStartsWith line "#" = true)
    (h1 : strStartsWith line "##fileformat" = false)
    (h2 : strStartsWith line "##INFO" = false)
    (h3 : strStartsWith line "##FILTER" = false)
    (h4 : strStartsWith line "##FORMAT" = false)
    (h5 : strStartsWith line "##contig" = false)
    (h6 : strStartsWith line "##command" = false)
    (h7 : strStartsWith line "#CHROM" = false)
    (shards : List Shard) : line ∉ merge shards := by
  have hcl : classify line = LineClass.dropped := by
    simp [classify, h0, h1, h2, h3, h4, h5, h6, h7]
  intro hl
  rw [merge, List.mem_flatMap] at hl
  obtain ⟨k, hk, hmem⟩ := hl
  rw [List.mem_filter, emitLine, hcl] at hmem
  exact Bool.false_ne_true hmem.2

/-- Witness for C9: an `##ALT` header line is dropped even from a key-1
shard that contains it. -/
theorem merge_unknown_hash_dropped_witness :
    "##ALT=<ID=DEL>" ∉ merge [⟨1, ["##ALT=<ID=DEL>", "row"]⟩] :=
  merge_unknown_hash_dropped "##ALT=<ID=DEL>" (by decide) (by decide) (by decide)
    (by decide) (by decide) (by decide) (by decide) (by decide)
    [⟨1, ["##ALT=<ID=DEL>", "row"]⟩]

/-- Helper: data lines pass the per-shard emission filter for every key. -/
theorem dataFilter_key (k : Int) (xs : List String) :
    (xs.filter (emitLine k)).filter isDataLine = xs.filter isDataLine := by
  rw [List.filter_filter]
  apply List.filter_congr
  intro l _
  rw [isDataLine, emitLine]
  cases hcl : classify l <;> simp [hcl]

/-- Spec-side description used by claim C7: process the shards in ascending
sort-key order and concatenate each shard's data-classified lines, keeping
each shard's internal line order. -/
def specDataConcat (shards : List Shard) : List String :=
  (List.insertionSort (fun s t : Shard => s.key ≤ t.key) shards).flatMap
    (fun s => s.lines.filter isDataLine)

/-- Claim C7: for every collection of shards with unique sort keys, the data
lines of the merged output are exactly every shard's data lines, with shards
consumed in ascending sort-key order (independent of supply order) and each
shard's internal line order preserved. -/
theorem merge_data_lines_sorted (shards : List Shard)
    (hnd : (shards.map Shard.key).Nodup) :
    (merge shards).filter isDataLine = specDataConcat shards := by
  rw [merge, List.filter_flatMap]
  have hstep : (sortedKeys shards).flatMap
        (fun k => ((dictLines shards k).filter (emitLine k)).filter isDataLine) =
      (sortedKeys shards).flatMap (fun k => (dictLines shards k).filter isDataLine) := by
    apply List.flatMap_congr
    intro k _
    exact dataFilter_key k _
  rw [hstep]
  have hmapkeys : (List.insertionSort (fun s t : Shard => s.key ≤ t.key) shards).map Shard.key
      = sortedKeys shards := by
    haveI hTot : IsTotal Shard (fun s t => s.key ≤ t.key) := ⟨fun a b => Int.le_total a.key b.key⟩
    haveI hTr : IsTrans Shard (fun s t => s.key ≤ t.key) := ⟨fun a b c hab hbc => le_trans hab hbc⟩
    apply List.eq_of_perm_of_sorted (r := ((· ≤ ·) : Int → Int → Prop))
    · have hp1 : ((List.insertionSort (fun s t : Shard => s.key ≤ t.key) shards).map Shard.key).Perm
          (shards.map Shard.key) :=
        (List.perm_insertionSort _ shards).map Shard.key
      have hp2 : (sortedKeys shards).Perm (shards.map Shard.key) := by
        rw [sortedKeys]
        refine (List.perm_insertionSort _ _).trans ?_
        rw [List.Nodup.dedup hnd]
      exact hp1.trans hp2.symm
    · rw [List.Sorted, List.pairwise_map]
      exact List.sorted_insertionSort _ shards
    · rw [sortedKeys]
      exact List.sorted_insertionSort _ _
  rw [← hmapkeys, List.flatMap_map, specDataConcat]
  apply List.flatMap_congr
  intro s hs
  rw [List.mem_insertionSort] at hs
  rw [dictLines, dictLookup_nodup_mem shards hnd s hs]
  rfl

/-- Witness for C7 on two shards supplied out of key order, one containing a
dropped hash line. -/
theorem merge_data_lines_sorted_witness :
    (merge [⟨2, ["b"]⟩, ⟨1, ["a", "#weird"]⟩]).filter isDataLine =
      specDataConcat [⟨2, ["b"]⟩, ⟨1, ["a", "#weird"]⟩] :=
  merge_data_lines_sorted _ (by decide)

/-- Helper: if any path's key extraction fails, the whole extraction pass
fails. -/
theorem extractKeys_error (paths : List String) (p : String) (hp : p ∈ paths)
    (he : ∃ err, extractKey p = .error err) :
    ∃ e, extractKeys paths = .error e := by
  induction paths with
  | nil => simp at hp
  | cons q rest ih =>
    rcases List.mem_cons.mp hp with heq | hmem
    · subst heq
      obtain ⟨err, herr⟩ := he
      exact ⟨err, by rw [extractKeys, herr]; rfl⟩
    · cases hq : extractKey q with
      | error e => exact ⟨e, by rw [extractKeys, hq]; rfl⟩
      | ok k =>
        obtain ⟨e, hrest⟩ := ih hmem
        refine ⟨e, ?_⟩
        rw [extractKeys, hq]
        show (extractKeys rest).bind _ = .error e
        rw [hrest]
        rfl

/-- Claim C10 (implicit): when any input path has no `eh_shard`-plus-integer
segment, key extraction fails with `IndexError` or `ValueError` before the
output sink is involved, and the program writes no output line. -/
theorem merge_key_extraction_failfast (paths : List String)
    (contents : String → List String) (p : String) (hp : p ∈ paths)
    (he : ∃ err, extractKey p = .error err) :
    ∃ e, mainMerge paths contents = .error e ∧
      (e = PyError.indexError ∨ e = PyError.valueError) := by
  obtain ⟨e, hext⟩ := extractKeys_error paths p hp he
  refine ⟨e, ?_, ?_⟩
  · rw [mainMerge, hext]
    rfl
  · cases e
    · exact Or.inl rfl
    · exact Or.inr rfl

/-- Witness for C10: a path with no `eh_shard` substring aborts the program
with an `IndexError` and no output. -/
theorem merge_key_extraction_failfast_witness :
    ∃ e, mainMerge ["sample.vcf.gz"] (fun _ => []) = .error e ∧
      (e = PyError.indexError ∨ e = PyError.valueError) :=
  merge_key_extraction_failfast ["sample.vcf.gz"] (fun _ => []) "sample.vcf.gz"
    (by decide) ⟨PyError.indexError, rfl⟩
